import Mathlib

/-!
# Verification of the coverage-improvement pipeline

A shallow embedding, in Lean 4, of the parts of the `kraken-task`
repository referenced by the specification: the sandbox executor, the
improvement-job entity, the scan-enqueue path, the GitHub host gates, the
coverage scanner, the test validator and the Gemini generation loop.

Strings from the TypeScript source are modelled as `List Char`; JavaScript
numbers appearing in coverage data are modelled as `ℚ`; wall-clock readings
(`Date.now()` / `new Date()`) are modelled as explicit `Nat` parameters;
file-system and process effects are modelled by explicit state passing and
by oracle inputs describing the outcome of each external call.
-/

namespace KrakenSpec

/-- `needle.isPrefixOf hay` style prefix test on `List Char`, written out so
that every string operation of the source maps to one executable Lean
definition. -/
def isPrefix : List Char → List Char → Bool
  | [], _ => true
  | _ :: _, [] => false
  | a :: as, b :: bs => a = b && isPrefix as bs

/-- The remainder of `hay` after the first occurrence of `needle`, or `none`
when `needle` does not occur.  `JavaScript`'s `hay.includes(needle)` is
`(afterFirst needle hay).isSome`. -/
def afterFirst (needle : List Char) : List Char → Option (List Char)
  | [] => if needle = [] then some [] else none
  | c :: rest =>
    if isPrefix needle (c :: rest) then some ((c :: rest).drop needle.length)
    else afterFirst needle rest

/-- `hay.includes(needle)` of JavaScript. -/
def containsSub (needle hay : List Char) : Bool :=
  (afterFirst needle hay).isSome

/-- `hay.endsWith(suffix)` of JavaScript. -/
def endsWith (suffix hay : List Char) : Bool :=
  isPrefix suffix.reverse hay.reverse

theorem isPrefix_iff_append (n : List Char) :
    ∀ h : List Char, isPrefix n h = true ↔ ∃ t, h = n ++ t := by
  induction n with
  | nil => intro h; simp [isPrefix]
  | cons a as ih =>
    intro h
    cases h with
    | nil => simp [isPrefix]
    | cons b bs =>
      simp only [isPrefix, Bool.and_eq_true, decide_eq_true_eq, ih bs]
      constructor
      · rintro ⟨rfl, t, rfl⟩; exact ⟨t, rfl⟩
      · rintro ⟨t, ht⟩
        cases ht
        exact ⟨rfl, t, rfl⟩

theorem afterFirst_decomp {needle hay rest : List Char}
    (h : afterFirst needle hay = some rest) :
    ∃ pre, hay = pre ++ needle ++ rest := by
  induction hay with
  | nil =>
    by_cases hn : needle = ([] : List Char) <;>
      simp [afterFirst, hn] at h
    subst hn; subst h; exact ⟨[], rfl⟩
  | cons c cs ih =>
    by_cases hp : isPrefix needle (c :: cs) = true
    · rw [afterFirst, if_pos hp] at h
      obtain ⟨t, ht⟩ := (isPrefix_iff_append needle (c :: cs)).mp hp
      have h' : (c :: cs).drop needle.length = rest := Option.some_inj.mp h
      have hlen : ((c :: cs).drop needle.length) = t := by
        rw [ht, List.drop_append_of_le_length (le_refl _), List.drop_length,
          List.nil_append]
      refine ⟨[], ?_⟩
      rw [List.nil_append, ht, hlen.symm.trans h']
    · rw [afterFirst, if_neg hp] at h
      obtain ⟨pre, hpre⟩ := ih h
      exact ⟨c :: pre, by simp [hpre]⟩

theorem containsSub_of_decomp {needle : List Char} {pre post : List Char} :
    ∀ hay, hay = pre ++ needle ++ post → containsSub needle hay = true := by
  induction pre with
  | nil =>
    intro hay hh
    subst hh
    have hp : isPrefix needle (needle ++ post) = true :=
      (isPrefix_iff_append needle _).mpr ⟨post, rfl⟩
    simp only [List.nil_append]
    cases hn : needle ++ post with
    | nil =>
      have hne : needle = [] := by
        cases needle with
        | nil => rfl
        | cons a as => simp at hn
      subst hne
      simp [containsSub, afterFirst]
    | cons c cs =>
      rw [hn] at hp
      simp [containsSub, afterFirst, hp]
  | cons a as ih =>
    intro hay hh
    subst hh
    simp only [containsSub, afterFirst]
    split
    · simp
    · exact ih _ rfl

/-- The whitespace characters stripped by JavaScript's `String.trim`
(the ASCII subset; the source only ever trims process output). -/
def isJsWhitespace (c : Char) : Bool :=
  c = ' ' || c = '\t' || c = '\n' || c = '\r' || c = '\x0b' || c = '\x0c'

/-- `s.trim()` of JavaScript. -/
def jsTrim (s : List Char) : List Char :=
  ((s.dropWhile isJsWhitespace).reverse.dropWhile isJsWhitespace).reverse

/-! ## SandboxExecutorService (src/backend/src/infrastructure/sandbox/sandbox-executor.service.ts)

`runCommand` spawns a child process and resolves exactly once, from one of
three event handlers: the `close` handler (with the exit code), the timeout
callback (which kills the child), or the `error` handler (spawn failure).
The interleaving of `data` events and the terminating event is the
environment's choice; we model it as a `SpawnOutcome` value. -/

/-- How a spawned child process ends: normal close with an exit code after
emitting output chunks, the `setTimeout` firing first, or a spawn error. -/
inductive SpawnOutcome where
  | closed (code : Int) (chunks : List (List Char))
  | timedOut (chunksBefore : List (List Char))
  | spawnErrored (errMessage : List Char)

structure RunResult where
  success : Bool
  output : List Char
  deriving DecidableEq

/-- `SandboxExecutorService.runCommand`: `close` resolves
`{ success: code === 0, output: output.trim() }`; the timeout resolves
`{ success: false, output: output + '\nTIMEOUT' }` after killing the child;
the `error` handler resolves `{ success: false, output: err.message }`. -/
def runCommand : SpawnOutcome → RunResult
  | .closed code chunks =>
    { success := decide (code = 0), output := jsTrim chunks.flatten }
  | .timedOut chunks =>
    { success := false, output := chunks.flatten ++ "\nTIMEOUT".toList }
  | .spawnErrored msg =>
    { success := false, output := msg }

/-- `SandboxExecutorService.resolveInstallCmd`, as a function of which
lockfiles exist in the repository directory (`fsp.access` checks). -/
def resolveInstallCmd (hasPackageLock hasYarnLock : Bool) : List Char :=
  if hasPackageLock then "npm ci --ignore-scripts".toList
  else if hasYarnLock then "yarn install --frozen-lockfile --ignore-scripts".toList
  else "npm install --ignore-scripts".toList

/-! ## ImprovementJob (src/backend/src/domain/job/job.entity.ts) -/

inductive JobStatus where
  | QUEUED | CLONING | ANALYZING | GENERATING | PUSHING | PR_CREATED | FAILED
  deriving DecidableEq

structure ImprovementJob where
  id : List Char
  repositoryUrl : List Char
  filePath : List Char
  targetCoverage : ℚ
  status : JobStatus
  prLink : Option (List Char)
  errorMessage : Option (List Char)
  createdAt : Nat
  updatedAt : Nat
  deriving DecidableEq

/-- JavaScript truthiness of an optional string argument: `undefined` and
the empty string are falsy. -/
def truthy : Option (List Char) → Bool
  | none => false
  | some s => decide (s ≠ [])

/-- `ImprovementJob.create`: fresh job in status `QUEUED` with no PR link and
no error message; `new Date()` is modelled by the explicit `now`. -/
def ImprovementJob.create (id repositoryUrl filePath : List Char)
    (targetCoverage : ℚ) (now : Nat) : ImprovementJob :=
  { id := id, repositoryUrl := repositoryUrl, filePath := filePath
    targetCoverage := targetCoverage, status := .QUEUED
    prLink := none, errorMessage := none, createdAt := now, updatedAt := now }

/-- `ImprovementJob.updateStatus`: sets the status, overwrites
`errorMessage` / `prLink` only when the argument is truthy, and stamps
`updatedAt` with the current clock reading (`new Date()`). -/
def ImprovementJob.updateStatus (j : ImprovementJob) (status : JobStatus)
    (errorMessage prLink : Option (List Char)) (now : Nat) : ImprovementJob :=
  { j with
    status := status
    errorMessage := if truthy errorMessage then errorMessage else j.errorMessage
    prLink := if truthy prLink then prLink else j.prLink
    updatedAt := now }

/-! ## TrackedRepositoryService.enqueueScan
(src/backend/src/application/services/tracked-repository.service.ts)

`scanQueue.add('scan-repo', { repoId: id }, { jobId: \x7bscan-${id}-${Date.now()}\x7d })`.
BullMQ absorbs an `add` whose custom job id is already present in the
queue's job-key window; we model the window as the list of job keys. -/

/-- The scan job key: `scan-<repoId>-<Date.now()>`. -/
def scanJobKey (repoId : List Char) (nowTs : Nat) : List Char :=
  "scan-".toList ++ repoId ++ "-".toList ++ (toString nowTs).toList

/-- Broker `add` with a custom job key: absorbed when the key is already
present, appended otherwise. -/
def addJob (queue : List (List Char)) (jobKey : List Char) : List (List Char) :=
  if jobKey ∈ queue then queue else queue ++ [jobKey]

inductive EnqueueResult where
  | notFound
  | queued (queue : List (List Char)) (repoId : List Char)
  deriving DecidableEq

/-- `TrackedRepositoryService.enqueueScan`: throws `NotFoundException` when
the repository id is unknown, otherwise adds one scan job keyed by
`scanJobKey` and returns `{ queued: true, repoId }` (modelled together with
the resulting queue). -/
def enqueueScan (repoExists : Bool) (queue : List (List Char))
    (repoId : List Char) (nowTs : Nat) : EnqueueResult :=
  if repoExists then .queued (addJob queue (scanJobKey repoId nowTs)) repoId
  else .notFound

theorem addJob_idem (queue : List (List Char)) (k : List Char) :
    addJob (addJob queue k) k = addJob queue k := by
  by_cases h : k ∈ queue
  · simp [addJob, h]
  · simp [addJob, h]

/-- C8: `SandboxExecutorService.runCommand` reports every non-zero exit as
`success=false` with the concatenated stdout/stderr output; on timeout it
returns `success=false` with the distinguished `TIMEOUT` marker appended to
the output; spawn failures surface as `success=false` carrying the OS error
message. -/
theorem C8_runCommand_failure_semantics (o : SpawnOutcome) :
    ((runCommand o).success = true ↔ ∃ chunks, o = .closed 0 chunks)
    ∧ (∀ code chunks, o = .closed code chunks →
        (runCommand o).output = jsTrim chunks.flatten)
    ∧ (∀ chunks, o = .timedOut chunks →
        (runCommand o).success = false
          ∧ (runCommand o).output = chunks.flatten ++ "\nTIMEOUT".toList
          ∧ "TIMEOUT".toList <:+ (runCommand o).output)
    ∧ (∀ msg, o = .spawnErrored msg →
        (runCommand o).success = false ∧ (runCommand o).output = msg) := by
  refine ⟨?_, ?_, ?_, ?_⟩
  · cases o with
    | closed code chunks =>
      simp only [runCommand, decide_eq_true_eq]
      constructor
      · rintro rfl; exact ⟨chunks, rfl⟩
      · rintro ⟨c, hc⟩
        cases hc; rfl
    | timedOut chunks => simp [runCommand]
    | spawnErrored msg => simp [runCommand]
  · rintro code chunks rfl; rfl
  · rintro chunks rfl
    refine ⟨rfl, rfl, ⟨chunks.flatten ++ ['\n'], ?_⟩⟩
    show (chunks.flatten ++ ['\n']) ++ "TIMEOUT".toList
        = chunks.flatten ++ "\nTIMEOUT".toList
    rw [List.append_assoc]
    rfl
  · rintro msg rfl; exact ⟨rfl, rfl⟩

theorem C8_runCommand_failure_semantics_witness :
    (runCommand (SpawnOutcome.closed 2 [" exit 2 ".toList])).output
        = jsTrim [" exit 2 ".toList].flatten
    ∧ (runCommand (SpawnOutcome.timedOut ["partial".toList])).success = false
    ∧ "TIMEOUT".toList <:+ (runCommand (SpawnOutcome.timedOut ["partial".toList])).output
    ∧ (runCommand (SpawnOutcome.spawnErrored "ENOENT".toList)).success = false
    ∧ (runCommand (SpawnOutcome.spawnErrored "ENOENT".toList)).output = "ENOENT".toList :=
  ⟨(C8_runCommand_failure_semantics _).2.1 2 _ rfl,
   ((C8_runCommand_failure_semantics _).2.2.1 _ rfl).1,
   ((C8_runCommand_failure_semantics _).2.2.1 _ rfl).2.2,
   ((C8_runCommand_failure_semantics _).2.2.2 _ rfl).1,
   ((C8_runCommand_failure_semantics _).2.2.2 _ rfl).2⟩

/-- C10: `resolveInstallCmd` gives `package-lock.json` precedence over
`yarn.lock`: with both lockfiles it returns `npm ci --ignore-scripts`; the
yarn command is returned exactly when `yarn.lock` exists without
`package-lock.json`; otherwise `npm install --ignore-scripts`; and every
returned command carries `--ignore-scripts`. -/
theorem C10_resolveInstallCmd_precedence (hasPackageLock hasYarnLock : Bool) :
    (hasPackageLock = true →
      resolveInstallCmd hasPackageLock hasYarnLock = "npm ci --ignore-scripts".toList)
    ∧ (resolveInstallCmd hasPackageLock hasYarnLock
          = "yarn install --frozen-lockfile --ignore-scripts".toList
        ↔ hasYarnLock = true ∧ hasPackageLock = false)
    ∧ (hasPackageLock = false → hasYarnLock = false →
      resolveInstallCmd hasPackageLock hasYarnLock = "npm install --ignore-scripts".toList)
    ∧ "--ignore-scripts".toList <:+: resolveInstallCmd hasPackageLock hasYarnLock := by
  cases hasPackageLock <;> cases hasYarnLock <;> exact (by decide)

theorem C10_resolveInstallCmd_precedence_witness :
    resolveInstallCmd true true = "npm ci --ignore-scripts".toList
    ∧ resolveInstallCmd false true
        = "yarn install --frozen-lockfile --ignore-scripts".toList
    ∧ resolveInstallCmd false false = "npm install --ignore-scripts".toList :=
  ⟨(C10_resolveInstallCmd_precedence true true).1 rfl,
   (C10_resolveInstallCmd_precedence false true).2.1.mpr ⟨rfl, rfl⟩,
   (C10_resolveInstallCmd_precedence false false).2.2.1 rfl rfl⟩

/-- A concrete job whose stored `updatedAt` clock reading is 5. -/
def jobC7 : ImprovementJob :=
  ImprovementJob.create "job-1".toList "https://github.com/o/r".toList
    "src/svc.ts".toList 80 5

/-- C7, counterexample: `updateStatus` stamps `updatedAt` with the current
clock reading; when a transition happens in the same millisecond as the
previous update (`new Date()` returns the stored value again), the new
`updatedAt` equals — does not strictly exceed — the old one. -/
theorem C7_counterexample :
    ¬ ((jobC7.updateStatus .CLONING none none 5).updatedAt > jobC7.updatedAt) := by
  decide

/-- C7, amended: after `updateStatus` the job's `updatedAt` equals the clock
reading of the transition, so it strictly exceeds the previous `updatedAt`
exactly when the clock has advanced past it. -/
theorem C7_updateStatus_updatedAt (j : ImprovementJob) (s : JobStatus)
    (e p : Option (List Char)) (now : Nat) (h : j.updatedAt < now) :
    (j.updateStatus s e p now).updatedAt = now
    ∧ j.updatedAt < (j.updateStatus s e p now).updatedAt :=
  ⟨rfl, h⟩

theorem C7_updateStatus_updatedAt_witness :
    (jobC7.updateStatus .CLONING none none 6).updatedAt = 6
    ∧ jobC7.updatedAt < (jobC7.updateStatus .CLONING none none 6).updatedAt :=
  C7_updateStatus_updatedAt jobC7 .CLONING none none 6 (by decide)

/-- C6, counterexample: two scan enqueues for the same repository at clock
readings 0 and 1 (both inside any broker uniqueness window) carry distinct
job keys, so the broker keeps both: the queue ends with 2 jobs, not 1. -/
theorem C6_counterexample :
    enqueueScan true [] "repo-1".toList 0
        = .queued [scanJobKey "repo-1".toList 0] "repo-1".toList
    ∧ enqueueScan true [scanJobKey "repo-1".toList 0] "repo-1".toList 1
        = .queued [scanJobKey "repo-1".toList 0, scanJobKey "repo-1".toList 1]
            "repo-1".toList
    ∧ scanJobKey "repo-1".toList 0 ≠ scanJobKey "repo-1".toList 1
    ∧ [scanJobKey "repo-1".toList 0, scanJobKey "repo-1".toList 1].length ≠ 1 := by
  decide

/-- C6, amended: the scan job key has the form `scan-<repoId>-<ts>`, and a
duplicate enqueue is absorbed exactly when it produces the same job key —
i.e. when the two enqueues read the same millisecond timestamp; then the two
enqueues leave exactly one job. -/
theorem C6_enqueueScan_same_key_absorbed (queue : List (List Char))
    (repoId : List Char) (t1 t2 : Nat) (h : t1 = t2) :
    enqueueScan true queue repoId t1
        = .queued (addJob queue (scanJobKey repoId t1)) repoId
    ∧ addJob (addJob queue (scanJobKey repoId t1)) (scanJobKey repoId t2)
        = addJob queue (scanJobKey repoId t1)
    ∧ (addJob (addJob [] (scanJobKey repoId t1)) (scanJobKey repoId t2)).length = 1 := by
  subst h
  refine ⟨rfl, addJob_idem _ _, ?_⟩
  rw [addJob_idem]
  simp [addJob]

theorem C6_enqueueScan_same_key_absorbed_witness :
    enqueueScan true [] "repo-2".toList 7
        = .queued (addJob [] (scanJobKey "repo-2".toList 7)) "repo-2".toList
    ∧ (addJob (addJob [] (scanJobKey "repo-2".toList 7))
        (scanJobKey "repo-2".toList 7)).length = 1 :=
  ⟨(C6_enqueueScan_same_key_absorbed [] "repo-2".toList 7 7 rfl).1,
   (C6_enqueueScan_same_key_absorbed [] "repo-2".toList 7 7 rfl).2.2⟩

/-! ## GitHubService (src/backend/src/infrastructure/database/entities/tracked-repository.typeorm-entity.ts, third document: github.service.ts)

Each URL-taking operation begins (or, for `checkPermissions`, continues
after the credential check) with
`repositoryUrl.match(/github\.com\/([^\x2f]+)\/([^\x2f.]+)/)` and throws
`Invalid GitHub repository URL: <url>` when the match is `null`.
`githubUrlMatch` decides whether that regular expression matches: the regex
engine scans every start position; at a given position the pattern requires
the literal `github.com/`, then one or more non-slash characters, a slash,
and at least one character that is neither a slash nor a dot (the first
character class cannot match a slash, so greedy matching with backtracking
coincides with taking the maximal non-slash run). -/

/-- Whether `/github\.com\/([^\x2f]+)\/([^\x2f.]+)/` matches at the start of `s`. -/
def ghMatchHere (s : List Char) : Bool :=
  isPrefix "github.com/".toList s &&
    (let rest := s.drop "github.com/".toList.length
     let owner := rest.takeWhile (fun c => c != '/')
     match rest.drop owner.length with
     | '/' :: c :: _ => (!owner.isEmpty) && c != '/' && c != '.'
     | _ => false)

/-- Whether the GitHub-URL regular expression matches anywhere in `s`. -/
def githubUrlMatch : List Char → Bool
  | [] => ghMatchHere []
  | c :: rest => ghMatchHere (c :: rest) || githubUrlMatch rest

/-- The message of the error thrown on a malformed URL. -/
def invalidUrlMessage (url : List Char) : List Char :=
  "Invalid GitHub repository URL: ".toList ++ url

/-- How far a `GitHubService` operation gets before its first provider-side
action: it throws the invalid-URL error, returns a mocked result because no
`GITHUB_TOKEN` is configured, or proceeds to the provider call. -/
inductive HostGate where
  | invalidUrlError (message : List Char)
  | mocked
  | provider
  deriving DecidableEq

/-- `GitHubService.hasRequiredDependencies`: matches the URL first, throwing
on failure, then calls the provider's content API. -/
def hasRequiredDependenciesGate (url : List Char) : HostGate :=
  if githubUrlMatch url then .provider else .invalidUrlError (invalidUrlMessage url)

/-- `GitHubService.checkPermissions`: with no `GITHUB_TOKEN` it returns
`true` immediately (mocked, with a warning) — before any URL validation;
otherwise it matches the URL, throwing on failure, then calls the provider. -/
def checkPermissionsGate (hasToken : Bool) (url : List Char) : HostGate :=
  if hasToken = false then .mocked
  else if githubUrlMatch url then .provider
  else .invalidUrlError (invalidUrlMessage url)

/-- `GitHubService.cloneRepository`: performs no URL validation — it creates
the clone directory and invokes `git clone` with whatever URL it was given. -/
def cloneRepositoryGate (_url : List Char) : HostGate :=
  .provider

/-- `GitHubService.createPullRequest`: matches the URL first, throwing on
failure; then, with no `GITHUB_TOKEN`, returns a mocked PR URL, else calls
the provider. -/
def createPullRequestGate (hasToken : Bool) (url : List Char) : HostGate :=
  if githubUrlMatch url then (if hasToken then .provider else .mocked)
  else .invalidUrlError (invalidUrlMessage url)

/-- C9, counterexample: on the malformed URL `not-a-valid-url`,
`cloneRepository` does not fail fast with the invalid-URL error — it
proceeds straight to the provider-side clone; `checkPermissions` without a
configured credential likewise skips URL validation and returns its mocked
result. -/
theorem C9_counterexample :
    githubUrlMatch "not-a-valid-url".toList = false
    ∧ cloneRepositoryGate "not-a-valid-url".toList = .provider
    ∧ (∀ m, cloneRepositoryGate "not-a-valid-url".toList ≠ .invalidUrlError m)
    ∧ checkPermissionsGate false "not-a-valid-url".toList = .mocked := by
  refine ⟨by decide, rfl, ?_, by decide⟩
  intro m
  simp [cloneRepositoryGate]

/-- C9, amended: on a URL the GitHub regular expression does not match,
`hasRequiredDependencies` and `createPullRequest` (with or without a
credential) fail fast with the distinguished error whose message contains
`Invalid GitHub repository URL`, and `checkPermissions` does so when a
credential is configured; without a credential `checkPermissions` returns
its mocked result without validating, and `cloneRepository` never validates
the URL at all. -/
theorem C9_invalid_url_fail_fast (url : List Char)
    (h : githubUrlMatch url = false) :
    hasRequiredDependenciesGate url = .invalidUrlError (invalidUrlMessage url)
    ∧ createPullRequestGate true url = .invalidUrlError (invalidUrlMessage url)
    ∧ createPullRequestGate false url = .invalidUrlError (invalidUrlMessage url)
    ∧ checkPermissionsGate true url = .invalidUrlError (invalidUrlMessage url)
    ∧ checkPermissionsGate false url = .mocked
    ∧ cloneRepositoryGate url = .provider
    ∧ "Invalid GitHub repository URL".toList <:+: invalidUrlMessage url := by
  refine ⟨?_, ?_, ?_, ?_, rfl, rfl, ?_⟩
  · simp [hasRequiredDependenciesGate, h]
  · simp [createPullRequestGate, h]
  · simp [createPullRequestGate, h]
  · simp [checkPermissionsGate, h]
  · refine ⟨[], ": ".toList ++ url, ?_⟩
    show [] ++ "Invalid GitHub repository URL".toList ++ (": ".toList ++ url)
        = invalidUrlMessage url
    rw [List.nil_append, ← List.append_assoc]
    rfl

theorem C9_invalid_url_fail_fast_witness :
    hasRequiredDependenciesGate "bad-url".toList
        = .invalidUrlError (invalidUrlMessage "bad-url".toList)
    ∧ checkPermissionsGate true "bad-url".toList
        = .invalidUrlError (invalidUrlMessage "bad-url".toList)
    ∧ "Invalid GitHub repository URL".toList <:+: invalidUrlMessage "bad-url".toList :=
  ⟨(C9_invalid_url_fail_fast "bad-url".toList (by decide)).1,
   (C9_invalid_url_fail_fast "bad-url".toList (by decide)).2.2.2.1,
   (C9_invalid_url_fail_fast "bad-url".toList (by decide)).2.2.2.2.2.2⟩

/-! ## CoverageParserService (src/backend/src/infrastructure/coverage/coverage-parser.service.ts) -/

/-- `SKIP_DIRS`: directories never containing testable source code. -/
def SKIP_DIRS : List (List Char) :=
  ["node_modules".toList, "dist".toList, "build".toList, "coverage".toList,
   ".git".toList, "interfaces".toList, "interface".toList, "types".toList,
   "type".toList, "enums".toList, "enum".toList, "constants".toList,
   "typings".toList]

/-- The tails of the `SKIP_SUFFIXES` glob patterns: each pattern in the
source is `*` followed by one of these strings. -/
def SKIP_TAILS : List (List Char) :=
  [".d.ts".toList, ".interface.ts".toList, ".interfaces.ts".toList,
   ".types.ts".toList, ".type.ts".toList, ".enum.ts".toList,
   ".enums.ts".toList, ".constants.ts".toList, ".constant.ts".toList,
   ".spec.ts".toList, ".test.ts".toList, ".spec.tsx".toList,
   ".test.tsx".toList, "app.ts".toList, "main.ts".toList, "index.ts".toList,
   ".module.ts".toList, ".entity.ts".toList]

/-- The compiled `SKIP_FILE_REGEXES` matcher.  The source compiles each glob
with `new RegExp(s.replace('*', '.*').replace('.', '\\.') + '$')`; both
`replace` calls rewrite only the FIRST occurrence, so for a glob `*<tail>`
the compiled source is an escaped dot, a star, then `<tail>` verbatim — i.e.
`\.*` (zero or more literal dots) followed by `<tail>` in which every dot is
the regex wildcard, anchored at the end only.  Since `\.*` accepts the empty
string and the start is unanchored, the regex matches a name iff the name's
last `tail.length` characters agree with `tail` positionwise, where a dot in
`tail` matches any character. -/
def regexTailMatch (tail name : List Char) : Bool :=
  decide (tail.length ≤ name.length) &&
    ((name.drop (name.length - tail.length)).zip tail).all
      (fun p => p.2 == '.' || p.1 == p.2)

/-- `SKIP_FILE_REGEXES.some((r) => r.test(name))`. -/
def skipFileMatch (name : List Char) : Bool :=
  SKIP_TAILS.any (fun t => regexTailMatch t name)

/-- The canonical exclusion set's file patterns read as glob patterns: a
basename is excluded iff it literally ends with one of the pattern tails. -/
def canonicalFileExcluded (name : List Char) : Bool :=
  SKIP_TAILS.any (fun t => endsWith t name)

/-- `path.basename` on a forward-slash path. -/
def jsBasename (p : List Char) : List Char :=
  (p.splitOn '/').getLastD []

/-- `['/'].intercalate`: joining path components with `/`, as
`path.join` / `path.relative` produce on POSIX. -/
def joinPath (comps : List (List Char)) : List Char :=
  List.intercalate ['/'] comps

/-- A directory tree, as observed by the fallback walker `walkTs` through
`fsp.readdir(..., { withFileTypes: true })`. -/
inductive FsEntry where
  | file (name : List Char)
  | dir (name : List Char) (children : List FsEntry)

/-- Every entry name occurring in a forest. -/
def entryNames : List FsEntry → List (List Char)
  | [] => []
  | .file n :: rest => n :: entryNames rest
  | .dir n children :: rest => n :: (entryNames children ++ entryNames rest)

/-- The fallback walker `walkTs`, returning each collected file as its list
of path components relative to the scanned root: directories in `SKIP_DIRS`
are pruned; a file is collected iff its name matches `/\.tsx?$/` and none of
the compiled skip regexes. -/
def walkEntries : List FsEntry → List (List (List Char))
  | [] => []
  | .file name :: rest =>
    (if (endsWith ".ts".toList name || endsWith ".tsx".toList name)
        && skipFileMatch name = false
     then [[name]] else []) ++ walkEntries rest
  | .dir name children :: rest =>
    (if name ∈ SKIP_DIRS then []
     else (walkEntries children).map (fun comps => name :: comps))
      ++ walkEntries rest

structure FileCoverage where
  filePath : List Char
  linesCoverage : ℚ
  deriving DecidableEq

/-- One non-`total` entry of `coverage-summary.json`, after the real-path
resolution and relativisation performed by the service (environment I/O we
model as given): `rel` is the repo-relative path the service computed for
the entry, `pct` is the entry's published `lines.pct` field if any. -/
structure SummaryEntry where
  rel : List Char
  pct : Option ℚ
  deriving DecidableEq

/-- The per-entry filter-and-emit loop of `scanCoverage` (lines 307–340):
keep an entry iff its relative path matches `/\.tsx?$/`, no component of
`rel.split(path.sep)` is in `SKIP_DIRS`, and `path.basename(rel)` matches
none of `SKIP_FILE_REGEXES`; emit `lines.pct ?? 0` as the coverage. -/
def parseEntries (entries : List SummaryEntry) : List FileCoverage :=
  entries.filterMap fun e =>
    if endsWith ".ts".toList e.rel || endsWith ".tsx".toList e.rel then
      if (e.rel.splitOn '/').any (fun part => decide (part ∈ SKIP_DIRS)) then none
      else if skipFileMatch (jsBasename e.rel) then none
      else some { filePath := e.rel, linesCoverage := e.pct.getD 0 }
    else none

/-- The inputs `scanCoverage` reads from the environment: whether
`coverage/coverage-summary.json` was produced, its file entries, and the
directory tree seen by the fallback walker. -/
structure ScanInput where
  summaryProduced : Bool
  entries : List SummaryEntry
  tree : List FsEntry

/-- `CoverageParserService.scanCoverage`: with no summary, or with a summary
whose filtered entry list is empty, fall back to walking the source tree and
reporting every collected file at 0%; otherwise report the filtered entries. -/
def scanCoverage (inp : ScanInput) : List FileCoverage :=
  let fallback : List FileCoverage :=
    (walkEntries inp.tree).map (fun comps => { filePath := joinPath comps, linesCoverage := 0 })
  if inp.summaryProduced = false then fallback
  else
    let results := parseEntries inp.entries
    if results = [] then fallback else results

theorem regexTailMatch_of_endsWith {tail name : List Char}
    (h : endsWith tail name = true) : regexTailMatch tail name = true := by
  obtain ⟨r, hr⟩ := (isPrefix_iff_append tail.reverse name.reverse).mp h
  have hname : name = r.reverse ++ tail := by
    have := congrArg List.reverse hr
    simpa [List.reverse_append] using this
  subst hname
  have hlen : (r.reverse ++ tail).length - tail.length = r.reverse.length := by
    simp [List.length_append]
  have hdrop : (r.reverse ++ tail).drop r.reverse.length = tail :=
    List.drop_left _ _
  have hall : ((tail.zip tail).all (fun p => p.2 == '.' || p.1 == p.2)) = true := by
    induction tail with
    | nil => rfl
    | cons c cs ih => simp_all [List.zip]
  simp [regexTailMatch, hlen, hdrop, hall, List.length_append]

theorem skipFileMatch_of_canonical {name : List Char}
    (h : canonicalFileExcluded name = true) : skipFileMatch name = true := by
  simp only [canonicalFileExcluded, List.any_eq_true] at h
  obtain ⟨t, ht, he⟩ := h
  exact List.any_eq_true.mpr ⟨t, ht, regexTailMatch_of_endsWith he⟩

/-- No element of `SKIP_DIRS` ends in `.ts` or `.tsx`. -/
theorem skip_dirs_no_ts (d : List Char) (hd : d ∈ SKIP_DIRS) :
    endsWith ".ts".toList d = false ∧ endsWith ".tsx".toList d = false := by
  fin_cases hd <;> exact ⟨rfl, rfl⟩

/-- Every component list collected by the fallback walker consists of names
from the tree that are outside `SKIP_DIRS`, and ends in a file name that
matches `/\.tsx?$/` and none of the skip regexes. -/
theorem walkEntries_sound (l : List FsEntry) :
    ∀ comps ∈ walkEntries l,
      (∀ c ∈ comps, c ∈ entryNames l ∧ c ∉ SKIP_DIRS)
      ∧ ∃ last, comps.getLast? = some last
          ∧ skipFileMatch last = false
          ∧ (endsWith ".ts".toList last = true ∨ endsWith ".tsx".toList last = true) := by
  induction l using walkEntries.induct with
  | case1 => intro comps h; simp [walkEntries] at h
  | case2 name rest ih =>
    intro comps h
    simp only [walkEntries, List.mem_append] at h
    rcases h with h | h
    · by_cases hc : (endsWith ".ts".toList name || endsWith ".tsx".toList name)
          && skipFileMatch name = false
      · rw [if_pos hc] at h
        simp only [List.mem_singleton] at h
        subst h
        simp only [Bool.and_eq_true, Bool.or_eq_true, decide_eq_true_eq] at hc
        refine ⟨?_, name, rfl, hc.2, hc.1⟩
        intro c hcm
        simp only [List.mem_singleton] at hcm
        subst hcm
        refine ⟨by simp [entryNames], ?_⟩
        intro hmem
        rcases skip_dirs_no_ts c hmem with ⟨h1, h2⟩
        rcases hc.1 with h3 | h3
        · rw [h1] at h3; exact Bool.false_ne_true h3
        · rw [h2] at h3; exact Bool.false_ne_true h3
      · rw [if_neg hc] at h
        simp at h
    · obtain ⟨hmem, hlast⟩ := ih comps h
      refine ⟨?_, hlast⟩
      intro c hcm
      obtain ⟨h1, h2⟩ := hmem c hcm
      exact ⟨by simp [entryNames, h1], h2⟩
  | case3 name children rest ihc ihr =>
    intro comps h
    simp only [walkEntries, List.mem_append] at h
    rcases h with h | h
    · by_cases hd : name ∈ SKIP_DIRS
      · rw [if_pos hd] at h; simp at h
      · rw [if_neg hd] at h
        simp only [List.mem_map] at h
        obtain ⟨comps', hcm', rfl⟩ := h
        obtain ⟨hmem, last, hlast, hskip, hts⟩ := ihc comps' hcm'
        have hne : comps' ≠ [] := by
          intro hnil; rw [hnil] at hlast; simp at hlast
        refine ⟨?_, last, ?_, hskip, hts⟩
        · intro c hcm
          rcases List.mem_cons.mp hcm with rfl | hcm
          · exact ⟨by simp [entryNames], hd⟩
          · obtain ⟨h1, h2⟩ := hmem c hcm
            exact ⟨by simp [entryNames, h1], h2⟩
        · cases comps' with
          | nil => exact absurd rfl hne
          | cons a as => rw [List.getLast?_cons_cons]; exact hlast
    · obtain ⟨hmem, hlast⟩ := ihr comps h
      refine ⟨?_, hlast⟩
      intro c hcm
      obtain ⟨h1, h2⟩ := hmem c hcm
      refine ⟨?_, h2⟩
      simp only [entryNames, List.mem_cons, List.mem_append]
      tauto

/-- The invariant asserted by the specification for one emitted entry. -/
def CoverageEntryOk (fc : FileCoverage) : Prop :=
  0 ≤ fc.linesCoverage ∧ fc.linesCoverage ≤ 100
  ∧ (∀ part ∈ fc.filePath.splitOn '/', part ∉ SKIP_DIRS)
  ∧ canonicalFileExcluded (jsBasename fc.filePath) = false

theorem fallback_entries_ok (tree : List FsEntry)
    (htree : ∀ n ∈ entryNames tree, '/' ∉ n) :
    ∀ fc ∈ (walkEntries tree).map
        (fun comps => ({ filePath := joinPath comps, linesCoverage := 0 } : FileCoverage)),
      CoverageEntryOk fc := by
  intro fc hfc
  simp only [List.mem_map] at hfc
  obtain ⟨comps, hcm, rfl⟩ := hfc
  obtain ⟨hmem, last, hlast, hskip, _hts⟩ := walkEntries_sound tree comps hcm
  have hne : comps ≠ [] := by
    intro hnil; rw [hnil] at hlast; simp at hlast
  have hsep : ∀ c ∈ comps, '/' ∉ c := fun c hc => htree c (hmem c hc).1
  have hsplit : (joinPath comps).splitOn '/' = comps :=
    List.splitOn_intercalate comps '/' hsep hne
  refine ⟨le_refl 0, by norm_num, ?_, ?_⟩
  · intro part hp
    rw [hsplit] at hp
    exact (hmem part hp).2
  · have hbase : jsBasename (joinPath comps) = last := by
      rw [jsBasename, hsplit]
      rw [List.getLastD_eq_getLast?, hlast]
      rfl
    rw [hbase]
    cases hcan : canonicalFileExcluded last with
    | false => rfl
    | true => rw [skipFileMatch_of_canonical hcan] at hskip; exact hskip

theorem parsed_entries_ok (entries : List SummaryEntry)
    (hpct : ∀ e ∈ entries, ∀ q, e.pct = some q → 0 ≤ q ∧ q ≤ 100) :
    ∀ fc ∈ parseEntries entries, CoverageEntryOk fc := by
  intro fc hfc
  simp only [parseEntries, List.mem_filterMap] at hfc
  obtain ⟨e, he, hsome⟩ := hfc
  by_cases hts : (endsWith ".ts".toList e.rel || endsWith ".tsx".toList e.rel) = true
  case neg => rw [if_neg hts] at hsome; exact absurd hsome (by simp)
  rw [if_pos hts] at hsome
  by_cases hdir : ((e.rel.splitOn '/').any fun part => decide (part ∈ SKIP_DIRS)) = true
  case pos => rw [if_pos hdir] at hsome; exact absurd hsome (by simp)
  rw [if_neg hdir] at hsome
  by_cases hbase : skipFileMatch (jsBasename e.rel) = true
  case pos => rw [if_pos hbase] at hsome; exact absurd hsome (by simp)
  rw [if_neg hbase] at hsome
  obtain rfl := Option.some_inj.mp hsome
  refine ⟨?_, ?_, ?_, ?_⟩
  · cases hq : e.pct with
    | none => simp [hq]
    | some q => simpa [hq] using (hpct e he q hq).1
  · cases hq : e.pct with
    | none => simp [hq]
    | some q => simpa [hq] using (hpct e he q hq).2
  · intro part hp hmem
    exact hdir (List.any_eq_true.mpr ⟨part, hp, by simpa using hmem⟩)
  · cases hcan : canonicalFileExcluded (jsBasename e.rel) with
    | false => rfl
    | true => exact absurd (skipFileMatch_of_canonical hcan) hbase

/-- C5, counterexample: `scanCoverage` copies the summary's published
`lines.pct` into `linesCoverage` without clamping, so a summary entry
carrying `pct: 150` yields a returned `FileCoverage` outside `[0, 100]`. -/
theorem C5_counterexample :
    scanCoverage ⟨true, [⟨"src/a.ts".toList, some 150⟩], []⟩
      = [{ filePath := "src/a.ts".toList, linesCoverage := 150 }]
    ∧ ¬ ((150 : ℚ) ≤ 100) := by
  constructor
  · decide
  · norm_num

/-- C5, amended: every `FileCoverage` returned by `scanCoverage` has a file
path with no component in the excluded-directory set and a basename matching
none of the canonical excluded file patterns — unconditionally; and its
`linesCoverage` (the entry's published `lines.pct`, or 0 for fallback
entries and entries without the field) lies in `[0, 100]` whenever every
published `pct` of the input summary does.  (Directory-entry names contain
no separator, as `readdir` guarantees.) -/
theorem C5_scanCoverage_entries (inp : ScanInput)
    (htree : ∀ n ∈ entryNames inp.tree, '/' ∉ n)
    (hpct : ∀ e ∈ inp.entries, ∀ q, e.pct = some q → 0 ≤ q ∧ q ≤ 100) :
    ∀ fc ∈ scanCoverage inp, CoverageEntryOk fc := by
  intro fc hfc
  rw [scanCoverage] at hfc
  by_cases hs : inp.summaryProduced = false
  · rw [if_pos hs] at hfc
    exact fallback_entries_ok inp.tree htree fc hfc
  · rw [if_neg hs] at hfc
    by_cases hr : parseEntries inp.entries = []
    · rw [if_pos hr] at hfc
      exact fallback_entries_ok inp.tree htree fc hfc
    · rw [if_neg hr] at hfc
      exact parsed_entries_ok inp.entries hpct fc hfc

theorem C5_scanCoverage_entries_witness :
    CoverageEntryOk { filePath := "src/a.ts".toList, linesCoverage := 50 } :=
  C5_scanCoverage_entries ⟨true, [⟨"src/a.ts".toList, some 50⟩], []⟩
    (by intro n hn; simp [entryNames] at hn)
    (by
      intro e he q hq
      simp only [List.mem_singleton] at he
      subst he
      simp only [Option.some_inj] at hq
      subst hq
      norm_num)
    { filePath := "src/a.ts".toList, linesCoverage := 50 }
    (by decide)

/-! ## GeminiGeneratorService.generateTest (src/backend/src/infrastructure/ai/gemini-generator.service.ts)

The generation loop runs at most `MAX_ATTEMPTS` iterations.  Each iteration
writes the prompt scratch files, invokes the generator CLI exactly once in
the sandbox, and either throws (CLI failure, unparseable JSON, empty
payload — all of which propagate out of the loop at once), or produces
sanitized generated code, writes it to the verification path and runs the
validator.  A successful validation renames the verification file over the
real test path and returns; a failed one records the error text and loops.
After the loop, the verification file is unlinked (best effort) and a final
error naming the attempt bound and the last validation error is thrown.

We model one iteration's external outcome as an `AttemptSpec` (the
sanitized code and the validator verdict, or an aborting CLI-level error)
and the file system as the contents of the two paths involved. -/

def MAX_ATTEMPTS : Nat := 3

/-- The externally determined outcome of one loop iteration. -/
inductive AttemptSpec where
  | abortAttempt (msg : List Char)
  | generated (code : List Char) (validationOk : Bool) (validationError : List Char)

/-- Contents of the real test path and of the verification path. -/
structure GenFs where
  target : Option (List Char)
  verification : Option (List Char)
  deriving DecidableEq

inductive GenOutcome where
  | ok (attemptsUsed : Nat)
  | thrown (msg : List Char)
  | skipped
  deriving DecidableEq

structure GenRun where
  fs : GenFs
  cliCalls : Nat
  outcome : GenOutcome
  deriving DecidableEq

/-- The message of the exhaustion error thrown after `MAX_ATTEMPTS`
failures. -/
def exhaustMsg (sourceFilePath lastError : List Char) : List Char :=
  "Failed to generate a valid test for ".toList ++ sourceFilePath
    ++ " after ".toList ++ (toString MAX_ATTEMPTS).toList
    ++ " attempts. Last error: ".toList ++ lastError

/-- The bounded generate → validate → repair loop.  `attempt` is the 1-based
attempt counter, `fuel` the remaining iterations (`MAX_ATTEMPTS` at entry). -/
def generateLoop (oracle : Nat → AttemptSpec) (sourceFilePath : List Char) :
    GenFs → List Char → Nat → Nat → Nat → GenRun
  | fs, currentError, _, 0, calls =>
    { fs := { fs with verification := none }
      cliCalls := calls
      outcome := .thrown (exhaustMsg sourceFilePath currentError) }
  | fs, _, attempt, fuel + 1, calls =>
    match oracle attempt with
    | .abortAttempt msg =>
      { fs := fs, cliCalls := calls + 1
        outcome := .thrown ("Isolated AI CLI execution failed: ".toList ++ msg) }
    | .generated code ok err =>
      let fs1 : GenFs := { fs with verification := some code }
      if ok then
        { fs := { target := some code, verification := none }
          cliCalls := calls + 1, outcome := .ok attempt }
      else
        generateLoop oracle sourceFilePath fs1 err (attempt + 1) fuel (calls + 1)

/-- `GeminiGeneratorService.generateTest`: excluded sources return silently
before any CLI call; otherwise the loop runs with `MAX_ATTEMPTS` fuel and an
empty initial error. -/
def generateTest (skip : Bool) (oracle : Nat → AttemptSpec)
    (sourceFilePath : List Char) (fs : GenFs) : GenRun :=
  if skip then { fs := fs, cliCalls := 0, outcome := .skipped }
  else generateLoop oracle sourceFilePath fs [] 1 MAX_ATTEMPTS 0

/-- The verification path: the target test path with a final `.spec.ts` or
`.test.ts` replaced by `.verification.test.ts`
(`fullTestFilePath.replace(/\.(spec|test)\.ts$/, '.verification.test.ts')`);
a path without such a suffix is returned unchanged. -/
def toVerificationPath (p : List Char) : List Char :=
  if endsWith ".spec.ts".toList p || endsWith ".test.ts".toList p then
    p.take (p.length - 8) ++ ".verification.test.ts".toList
  else p

theorem generateLoop_cliCalls_le (oracle : Nat → AttemptSpec)
    (src : List Char) :
    ∀ fuel fs err attempt calls,
      (generateLoop oracle src fs err attempt fuel calls).cliCalls
        ≤ calls + fuel := by
  intro fuel
  induction fuel with
  | zero => intro fs err attempt calls; simp [generateLoop]
  | succ n ih =>
    intro fs err attempt calls
    rw [generateLoop]
    cases horacle : oracle attempt with
    | abortAttempt msg => simp
    | generated code ok verr =>
      by_cases hok : ok = true
      · subst hok; simp
      · have hko : ok = false := by revert hok; cases ok <;> simp
        subst hko
        simp only [Bool.false_eq_true, if_false]
        calc (generateLoop oracle src _ verr (attempt + 1) n (calls + 1)).cliCalls
            ≤ (calls + 1) + n := ih _ _ _ _
          _ = calls + (n + 1) := by omega

theorem generateLoop_target_frame (oracle : Nat → AttemptSpec)
    (src : List Char) :
    ∀ fuel fs err attempt calls,
      (∃ k, (generateLoop oracle src fs err attempt fuel calls).outcome = .ok k)
      ∨ (generateLoop oracle src fs err attempt fuel calls).fs.target = fs.target := by
  intro fuel
  induction fuel with
  | zero => intro fs err attempt calls; right; simp [generateLoop]
  | succ n ih =>
    intro fs err attempt calls
    rw [generateLoop]
    cases horacle : oracle attempt with
    | abortAttempt msg => right; simp
    | generated code ok verr =>
      by_cases hok : ok = true
      · subst hok
        left
        exact ⟨attempt, by simp⟩
      · have hko : ok = false := by revert hok; cases ok <;> simp
        subst hko
        simp only [Bool.false_eq_true, if_false]
        exact ih _ _ _ _

theorem generateLoop_ok_target (oracle : Nat → AttemptSpec)
    (src : List Char) :
    ∀ fuel fs err attempt calls k,
      (generateLoop oracle src fs err attempt fuel calls).outcome = .ok k →
      ∃ code verr, oracle k = .generated code true verr
        ∧ (generateLoop oracle src fs err attempt fuel calls).fs
            = { target := some code, verification := none } := by
  intro fuel
  induction fuel with
  | zero => intro fs err attempt calls k h; simp [generateLoop] at h
  | succ n ih =>
    intro fs err attempt calls k h
    rw [generateLoop] at h ⊢
    cases horacle : oracle attempt with
    | abortAttempt msg => rw [horacle] at h; simp at h
    | generated code ok verr =>
      rw [horacle] at h
      by_cases hok : ok = true
      · subst hok
        simp only [if_true, GenOutcome.ok.injEq] at h
        subst h
        rw [horacle]
        exact ⟨code, verr, rfl, by simp⟩
      · have hko : ok = false := by revert hok; cases ok <;> simp
        subst hko
        simp only [Bool.false_eq_true, if_false] at h ⊢
        exact ih _ _ _ _ k h

/-- Running the loop with validation failing on attempts 1, 2 and 3:
exhaustion.  The verification file is unlinked, the target is untouched, the
CLI was invoked exactly `MAX_ATTEMPTS` times, and the thrown message is the
exhaustion message carrying the last attempt's validation error. -/
theorem generateTest_exhausts (oracle : Nat → AttemptSpec) (src : List Char)
    (fs : GenFs) (c1 e1 c2 e2 c3 e3 : List Char)
    (h1 : oracle 1 = .generated c1 false e1)
    (h2 : oracle 2 = .generated c2 false e2)
    (h3 : oracle 3 = .generated c3 false e3) :
    generateTest false oracle src fs
      = { fs := { target := fs.target, verification := none }
          cliCalls := 3
          outcome := .thrown (exhaustMsg src e3) } := by
  rw [generateTest]
  simp only [Bool.false_eq_true, if_false, MAX_ATTEMPTS]
  rw [show (3 : Nat) = 2 + 1 from rfl, generateLoop, h1]
  simp only [Bool.false_eq_true, if_false]
  rw [show (2 : Nat) = 1 + 1 from rfl, generateLoop]
  norm_num [h2]
  rw [show (1 : Nat) = 0 + 1 from rfl, generateLoop]
  norm_num [h3]
  rw [generateLoop]

/-- The exhaustion message decomposed around its distinguished parts. -/
theorem exhaustMsg_decomp (src lastError : List Char) :
    exhaustMsg src lastError
      = "Failed to generate a valid test for ".toList ++ src
        ++ (" after 3 attempts. Last error: ".toList ++ lastError) := by
  rw [exhaustMsg]
  simp only [List.append_assoc]
  congr 2

/-- C2: `generateTest` invokes the generator CLI at most `MAX_ATTEMPTS = 3`
times; when every attempt's validation fails, it ends with the verification
file deleted, exactly 3 CLI invocations, and a thrown error whose message
contains `after 3 attempts` and ends with the last validation error text. -/
theorem C2_generateTest_retry_bound (skip : Bool) (oracle : Nat → AttemptSpec)
    (src : List Char) (fs : GenFs) :
    (generateTest skip oracle src fs).cliCalls ≤ MAX_ATTEMPTS
    ∧ (skip = false →
       (∀ k, 1 ≤ k → k ≤ MAX_ATTEMPTS → ∃ c e, oracle k = .generated c false e) →
       ∃ c lastErr,
         oracle MAX_ATTEMPTS = .generated c false lastErr
         ∧ (generateTest skip oracle src fs).outcome = .thrown (exhaustMsg src lastErr)
         ∧ (generateTest skip oracle src fs).fs.verification = none
         ∧ (generateTest skip oracle src fs).cliCalls = 3
         ∧ "after 3 attempts".toList <:+: exhaustMsg src lastErr
         ∧ lastErr <:+ exhaustMsg src lastErr) := by
  constructor
  · cases skip with
    | true => simp [generateTest, MAX_ATTEMPTS]
    | false =>
      rw [generateTest]
      simp only [Bool.false_eq_true, if_false]
      simpa using generateLoop_cliCalls_le oracle src MAX_ATTEMPTS fs [] 1 0
  · intro hs hall
    subst hs
    obtain ⟨c1, e1, h1⟩ := hall 1 (by norm_num) (by norm_num [MAX_ATTEMPTS])
    obtain ⟨c2, e2, h2⟩ := hall 2 (by norm_num) (by norm_num [MAX_ATTEMPTS])
    obtain ⟨c3, e3, h3⟩ := hall 3 (by norm_num) (by norm_num [MAX_ATTEMPTS])
    have hrun := generateTest_exhausts oracle src fs c1 e1 c2 e2 c3 e3 h1 h2 h3
    refine ⟨c3, e3, by rw [MAX_ATTEMPTS]; exact h3, ?_, ?_, ?_, ?_, ?_⟩
    · rw [hrun]
    · rw [hrun]
    · rw [hrun]
    · refine ⟨"Failed to generate a valid test for ".toList ++ src ++ [' '],
        ". Last error: ".toList ++ e3, ?_⟩
      rw [exhaustMsg_decomp]
      simp only [List.append_assoc]
      congr 2
    · refine ⟨"Failed to generate a valid test for ".toList ++ src
        ++ " after 3 attempts. Last error: ".toList, ?_⟩
      rw [exhaustMsg_decomp]
      simp only [List.append_assoc]

theorem C2_generateTest_retry_bound_witness :
    (generateTest false (fun _ => .generated "x".toList false "err".toList)
        "src/a.ts".toList ⟨none, none⟩).cliCalls ≤ MAX_ATTEMPTS
    ∧ ∃ c lastErr,
        (fun _ => AttemptSpec.generated "x".toList false "err".toList) MAX_ATTEMPTS
            = AttemptSpec.generated c false lastErr
        ∧ (generateTest false (fun _ => .generated "x".toList false "err".toList)
            "src/a.ts".toList ⟨none, none⟩).outcome
            = .thrown (exhaustMsg "src/a.ts".toList lastErr)
        ∧ (generateTest false (fun _ => .generated "x".toList false "err".toList)
            "src/a.ts".toList ⟨none, none⟩).fs.verification = none
        ∧ (generateTest false (fun _ => .generated "x".toList false "err".toList)
            "src/a.ts".toList ⟨none, none⟩).cliCalls = 3
        ∧ "after 3 attempts".toList <:+: exhaustMsg "src/a.ts".toList lastErr
        ∧ lastErr <:+ exhaustMsg "src/a.ts".toList lastErr :=
  ⟨(C2_generateTest_retry_bound false (fun _ => .generated "x".toList false "err".toList)
      "src/a.ts".toList ⟨none, none⟩).1,
   (C2_generateTest_retry_bound false (fun _ => .generated "x".toList false "err".toList)
      "src/a.ts".toList ⟨none, none⟩).2 rfl
      (fun _ _ _ => ⟨"x".toList, "err".toList, rfl⟩)⟩

/-- C3: the verification path differs from the target test path (whenever
the target path carries a final `.spec.ts`/`.test.ts`, as the claim
presupposes); the target path's content changes only through the rename
performed on successful validation — in every run where no attempt passes
validation the target is unchanged, and on success it holds exactly the
successfully validated generated code. -/
theorem C3_generateTest_target_frame (p : List Char)
    (hp : endsWith ".spec.ts".toList p = true ∨ endsWith ".test.ts".toList p = true)
    (skip : Bool) (oracle : Nat → AttemptSpec) (src : List Char) (fs : GenFs) :
    toVerificationPath p ≠ p
    ∧ ((∀ k, (generateTest skip oracle src fs).outcome ≠ .ok k) →
        (generateTest skip oracle src fs).fs.target = fs.target)
    ∧ (∀ k, (generateTest skip oracle src fs).outcome = .ok k →
        ∃ code verr, oracle k = .generated code true verr
          ∧ (generateTest skip oracle src fs).fs.target = some code) := by
  refine ⟨?_, ?_, ?_⟩
  · have hlen8 : 8 ≤ p.length := by
      rcases hp with hp | hp <;>
      · obtain ⟨t, ht⟩ := (isPrefix_iff_append _ _).mp hp
        have := congrArg List.length ht
        simp at this
        omega
    have hcond : (endsWith ".spec.ts".toList p || endsWith ".test.ts".toList p) = true := by
      rw [Bool.or_eq_true]
      exact hp
    intro heq
    have hver : toVerificationPath p
        = p.take (p.length - 8) ++ ".verification.test.ts".toList := by
      rw [toVerificationPath, if_pos hcond]
    rw [hver] at heq
    have hl := congrArg List.length heq
    rw [List.length_append, List.length_take] at hl
    have h21 : (".verification.test.ts".toList).length = 21 := rfl
    have hmin : min (p.length - 8) p.length = p.length - 8 :=
      Nat.min_eq_left (Nat.sub_le _ _)
    rw [h21, hmin] at hl
    omega
  · cases skip with
    | true => intro _; simp [generateTest]
    | false =>
      intro hout
      rw [generateTest] at hout ⊢
      simp only [Bool.false_eq_true, if_false] at hout ⊢
      rcases generateLoop_target_frame oracle src MAX_ATTEMPTS fs [] 1 0 with ⟨k, hk⟩ | h
      · exact absurd hk (hout k)
      · exact h
  · intro k hk
    cases skip with
    | true => simp [generateTest] at hk
    | false =>
      rw [generateTest] at hk ⊢
      simp only [Bool.false_eq_true, if_false] at hk ⊢
      obtain ⟨code, verr, ho, hfs⟩ := generateLoop_ok_target oracle src MAX_ATTEMPTS fs [] 1 0 k hk
      exact ⟨code, verr, ho, by rw [hfs]⟩

theorem C3_generateTest_target_frame_witness :
    toVerificationPath "src/a.test.ts".toList ≠ "src/a.test.ts".toList
    ∧ (generateTest false (fun _ => .generated "y".toList false "err2".toList)
        "src/a.ts".toList ⟨some "old".toList, none⟩).fs.target
        = (⟨some "old".toList, none⟩ : GenFs).target := by
  have h := C3_generateTest_target_frame "src/a.test.ts".toList (Or.inr (by decide))
    false (fun _ => .generated "y".toList false "err2".toList)
    "src/a.ts".toList ⟨some "old".toList, none⟩
  refine ⟨h.1, h.2.1 ?_⟩
  intro k hk
  have heval : (generateTest false (fun _ => .generated "y".toList false "err2".toList)
      "src/a.ts".toList ⟨some "old".toList, none⟩).outcome
      = .thrown (exhaustMsg "src/a.ts".toList "err2".toList) := by decide
  rw [heval] at hk
  exact GenOutcome.noConfusion hk

/-! ## TestValidatorService.validateTest (src/unnamed/part_008, second document)

The validator runs three phases.  Phase A type-checks the test file in the
sandbox and inspects the output line by line; a line is treated as fatal iff
it contains `error TS` and contains none of the ignorable codes — both by
substring containment (`line.includes(...)`).  A failed type-check with a
fatal line short-circuits with the compiler output, before the test runner
is ever invoked.  Phase B runs Jest; when the extracted JSON carries no
`"coverageMap"` marker and Jest exited non-zero, an execution error is
returned.  Phase C parses the JSON (a parse failure yields a validation
error), locates the source file's statistics by suffix match, computes the
statement percentage from the published `pct` field or else as
`covered/total*100` over the statement-hit map, and enforces the threshold,
sampling the first 20 uncovered statement identifiers into the error.

The sandboxed command results and the parsed JSON are oracle inputs; the
error strings are modelled by the `VError` constructors, each carrying the
data interpolated into the corresponding message template (`lowCoverage`
carries the `slice(0, 20)` sample embedded in the `COVERAGE TOO LOW`
message). -/

def ignorableCodes : List (List Char) :=
  ["TS2307".toList, "TS2305".toList, "TS2339".toList, "TS2503".toList,
   "TS2345".toList, "TS2322".toList, "TS2304".toList]

/-- One output line is fatal iff it contains `error TS` and none of the
ignorable codes occurs in it as a substring. -/
def lineIsFatal (line : List Char) : Bool :=
  containsSub "error TS".toList line
    && !(ignorableCodes.any fun code => containsSub code line)

/-- `isFatalTscError`: some line of the compiler output is fatal. -/
def isFatalTscError (output : List Char) : Bool :=
  (output.splitOn '\n').any lineIsFatal

/-- The error code of a compile-error line as the specification reads it:
`TS` followed by the digits after the line's first `error TS`. -/
def lineErrorCode (line : List Char) : Option (List Char) :=
  (afterFirst "error TS".toList line).map
    (fun rest => "TS".toList ++ rest.takeWhile Char.isDigit)

/-- The `s` member of one coverage-map entry: absent, or a JavaScript object
modelled by its `Object.entries` list (string keys, numeric values); a
`pct` key, when present, is the published percentage (`typeof ... ===
'number'` always holds since every modelled value is a number). -/
structure StatementStats where
  s : Option (List (List Char × ℚ))
  deriving DecidableEq

structure JestJson where
  coverageMap : List (List Char × StatementStats)
  deriving DecidableEq

/-- The observable outcome of the Jest phase: the runner's exit success, the
raw output, whether the extracted JSON tail contains the `"coverageMap"`
marker, and the result of `JSON.parse` on it (`none` = parse throws). -/
structure JestPhase where
  success : Bool
  output : List Char
  hasCoverageMapMarker : Bool
  parsed : Option JestJson
  deriving DecidableEq

structure VInput where
  tscSuccess : Bool
  tscOutput : List Char
  jest : JestPhase
  deriving DecidableEq

inductive VError where
  | noError
  | tscCompilation (tscOutput : List Char)
  | jestExecution (jestOutput : List Char) (tscFailed : Bool) (tscOutput : List Char)
  | coverageNotFound (sourceBase : List Char)
  | lowCoverage (pct target : ℚ) (uncoveredSample : List (List Char))
  | coverageParse
  deriving DecidableEq

structure VResult where
  success : Bool
  error : VError
  coverage : ℚ
  deriving DecidableEq

/-- The statement-coverage percentage: the published `pct` when present,
else `covered/total*100` over the hit map, else 0. -/
def statementPct (s : Option (List (List Char × ℚ))) : ℚ :=
  match s with
  | none => 0
  | some entries =>
    match entries.lookup "pct".toList with
    | some p => p
    | none =>
      let total := entries.length
      let covered := (entries.filter fun kv => decide (0 < kv.2)).length
      if 0 < total then (covered : ℚ) / (total : ℚ) * 100 else 0

/-- The identifiers of uncovered statements: entries of `stats.s` whose hit
count is 0 (empty when `stats.s` is absent). -/
def uncoveredIds (s : Option (List (List Char × ℚ))) : List (List Char) :=
  match s with
  | none => []
  | some entries => (entries.filter fun kv => decide (kv.2 = 0)).map Prod.fst

/-- `Object.keys(coverageMap).find(key => key.endsWith(targetRelativePath)
|| key.endsWith(sourceBase))`, returning the entry. -/
def findSourceKey (coverageMap : List (List Char × StatementStats))
    (targetRel sourceBase : List Char) : Option (List Char × StatementStats) :=
  coverageMap.find? fun kv =>
    endsWith targetRel kv.1 || endsWith sourceBase kv.1

/-- Phase C: parse the JSON, find the source entry, enforce the threshold. -/
def coveragePhase (jest : JestPhase) (targetRel sourceBase : List Char)
    (target : ℚ) : VResult :=
  match jest.parsed with
  | none => { success := false, error := .coverageParse, coverage := 0 }
  | some json =>
    match findSourceKey json.coverageMap targetRel sourceBase with
    | none => { success := false, error := .coverageNotFound sourceBase, coverage := 0 }
    | some kv =>
      let pct := statementPct kv.2.s
      if pct < target then
        { success := false
          error := .lowCoverage pct target ((uncoveredIds kv.2.s).take 20)
          coverage := pct }
      else { success := true, error := .noError, coverage := pct }

/-- `TestValidatorService.validateTest`.  The returned boolean records
whether the Jest phase was invoked. -/
def validateTest (inp : VInput) (targetRel sourceBase : List Char)
    (target : ℚ) : VResult × Bool :=
  if inp.tscSuccess = false && isFatalTscError inp.tscOutput then
    ({ success := false, error := .tscCompilation inp.tscOutput, coverage := 0 }, false)
  else if inp.jest.hasCoverageMapMarker = false && inp.jest.success = false then
    ({ success := false
       error := .jestExecution inp.jest.output inp.tscSuccess inp.tscOutput
       coverage := 0 }, true)
  else (coveragePhase inp.jest targetRel sourceBase target, true)

theorem coveragePhase_success (jest : JestPhase) (targetRel sourceBase : List Char)
    (target : ℚ) :
    (coveragePhase jest targetRel sourceBase target).success = true →
    target ≤ (coveragePhase jest targetRel sourceBase target).coverage := by
  rw [coveragePhase]
  cases h : jest.parsed with
  | none => simp
  | some json =>
    cases hf : findSourceKey json.coverageMap targetRel sourceBase with
    | none => simp [hf]
    | some kv =>
      simp only [hf]
      by_cases hlow : statementPct kv.2.s < target
      · simp [hlow]
      · simp only [if_neg hlow]
        intro _
        exact le_of_not_lt hlow

/-- C1: whenever `validateTest` returns `success=true` the returned coverage
is at least the requested target; and whenever control reaches the coverage
enforcement (no fatal-compile short-circuit, no execution-error
short-circuit, parseable JSON, source entry found) with a measured
percentage below the target, the result is `success=false` carrying the
`COVERAGE TOO LOW` error with the first at-most-20 uncovered statement
identifiers and the measured coverage. -/
theorem C1_validateTest_coverage_threshold (inp : VInput)
    (targetRel sourceBase : List Char) (target : ℚ) :
    ((validateTest inp targetRel sourceBase target).1.success = true →
      target ≤ (validateTest inp targetRel sourceBase target).1.coverage)
    ∧ (∀ json kv,
        (inp.tscSuccess = false → isFatalTscError inp.tscOutput = false) →
        (inp.jest.hasCoverageMapMarker = false → inp.jest.success = true) →
        inp.jest.parsed = some json →
        findSourceKey json.coverageMap targetRel sourceBase = some kv →
        statementPct kv.2.s < target →
        (validateTest inp targetRel sourceBase target).1
          = { success := false
              error := .lowCoverage (statementPct kv.2.s) target
                ((uncoveredIds kv.2.s).take 20)
              coverage := statementPct kv.2.s }
        ∧ ((uncoveredIds kv.2.s).take 20).length ≤ 20) := by
  constructor
  · intro hsucc
    rw [validateTest] at hsucc ⊢
    by_cases h1 : (inp.tscSuccess = false && isFatalTscError inp.tscOutput) = true
    · rw [if_pos h1] at hsucc; exact absurd hsucc (by simp)
    · rw [if_neg h1] at hsucc ⊢
      by_cases h2 : (inp.jest.hasCoverageMapMarker = false && inp.jest.success = false) = true
      · rw [if_pos h2] at hsucc; exact absurd hsucc (by simp)
      · rw [if_neg h2] at hsucc ⊢
        exact coveragePhase_success inp.jest targetRel sourceBase target hsucc
  · intro json kv hnf hexec hparsed hfind hlow
    have hg1 : ¬ ((inp.tscSuccess = false && isFatalTscError inp.tscOutput) = true) := by
      intro hc
      simp only [Bool.and_eq_true, decide_eq_true_eq] at hc
      rw [hnf hc.1] at hc
      exact Bool.false_ne_true hc.2
    have hg2 : ¬ ((inp.jest.hasCoverageMapMarker = false && inp.jest.success = false) = true) := by
      intro hc
      simp only [Bool.and_eq_true, decide_eq_true_eq] at hc
      rw [hexec hc.1] at hc
      exact absurd hc.2 (by simp)
    rw [validateTest, if_neg hg1, if_neg hg2]
    rw [coveragePhase, hparsed]
    simp only [hfind, if_pos hlow]
    refine ⟨by trivial, ?_⟩
    calc ((uncoveredIds kv.2.s).take 20).length
        = min 20 (uncoveredIds kv.2.s).length := List.length_take 20 _
      _ ≤ 20 := Nat.min_le_left _ _

/-- Concrete statistics: published `pct` 50, statement 0 hit once,
statement 1 uncovered. -/
def statsC1 : StatementStats :=
  ⟨some [("pct".toList, 50), ("0".toList, 1), ("1".toList, 0)]⟩

def jsonC1 : JestJson := ⟨[("repo/src/a.ts".toList, statsC1)]⟩

def inpC1 : VInput := ⟨true, [], ⟨true, [], true, some jsonC1⟩⟩

theorem C1_validateTest_coverage_threshold_witness :
    (validateTest inpC1 "src/a.ts".toList "a.ts".toList 80).1
      = { success := false
          error := .lowCoverage (statementPct statsC1.s) 80
            ((uncoveredIds statsC1.s).take 20)
          coverage := statementPct statsC1.s }
    ∧ ((uncoveredIds statsC1.s).take 20).length ≤ 20 :=
  (C1_validateTest_coverage_threshold inpC1 "src/a.ts".toList "a.ts".toList 80).2
    jsonC1 ("repo/src/a.ts".toList, statsC1)
    (by decide) (by decide) rfl (by decide) (by decide)

/-- C4, counterexample: the compiler output line
`error TS2300: see TS2307` has error code `TS2300`, which is not in the
ignorable set, and the type-check failed — yet `validateTest` still invokes
the test runner and does not return the compiler output, because the line
mentions `TS2307` and ignorability is decided by substring containment over
the whole line, not by the line's own error code. -/
theorem C4_counterexample :
    (∃ line ∈ ("error TS2300: see TS2307".toList).splitOn '\n',
        lineErrorCode line = some "TS2300".toList
        ∧ "TS2300".toList ∉ ignorableCodes)
    ∧ (validateTest ⟨false, "error TS2300: see TS2307".toList,
          ⟨true, [], true, none⟩⟩ "src/a.ts".toList "a.ts".toList 80).2 = true
    ∧ ∀ m, (validateTest ⟨false, "error TS2300: see TS2307".toList,
          ⟨true, [], true, none⟩⟩ "src/a.ts".toList "a.ts".toList 80).1.error
        ≠ .tscCompilation m := by
  refine ⟨⟨"error TS2300: see TS2307".toList, by decide, by decide, by decide⟩,
    by decide, ?_⟩
  have heval : (validateTest ⟨false, "error TS2300: see TS2307".toList,
      ⟨true, [], true, none⟩⟩ "src/a.ts".toList "a.ts".toList 80).1.error
      = .coverageParse := by decide
  rw [heval]
  intro m h
  exact VError.noConfusion h

/-- C4, amended: validation short-circuits with the compiler output, without
invoking the runner, exactly when the type-check failed and some output line
contains `error TS` but none of the ignorable codes as a substring;
otherwise the runner is invoked.  In particular a line whose own error code
is in the ignorable set is never fatal (so all-ignorable output proceeds to
execution), but a line is also treated as ignorable — regardless of its own
code — when any ignorable code occurs anywhere in it. -/
theorem C4_validateTest_fatal_gate (inp : VInput)
    (targetRel sourceBase : List Char) (target : ℚ) :
    (inp.tscSuccess = false → isFatalTscError inp.tscOutput = true →
      validateTest inp targetRel sourceBase target
        = ({ success := false, error := .tscCompilation inp.tscOutput, coverage := 0 },
            false))
    ∧ ((inp.tscSuccess = true ∨ isFatalTscError inp.tscOutput = false) →
      (validateTest inp targetRel sourceBase target).2 = true)
    ∧ (∀ line, (∃ code, lineErrorCode line = some code ∧ code ∈ ignorableCodes) →
        lineIsFatal line = false) := by
  refine ⟨?_, ?_, ?_⟩
  · intro hts hf
    rw [validateTest, if_pos]
    rw [Bool.and_eq_true, hf]
    exact ⟨decide_eq_true hts, rfl⟩
  · intro hor
    have hg1 : ¬ ((inp.tscSuccess = false && isFatalTscError inp.tscOutput) = true) := by
      intro hc
      simp only [Bool.and_eq_true, decide_eq_true_eq] at hc
      rcases hor with h | h
      · rw [h] at hc; exact absurd hc.1 (by simp)
      · rw [h] at hc; exact absurd hc.2 (by simp)
    rw [validateTest, if_neg hg1]
    by_cases h2 : (inp.jest.hasCoverageMapMarker = false && inp.jest.success = false) = true
    · rw [if_pos h2]
    · rw [if_neg h2]
  · rintro line ⟨code, hcode, hmem⟩
    rw [lineErrorCode] at hcode
    obtain ⟨rest, hrest, hc⟩ : ∃ rest,
        afterFirst "error TS".toList line = some rest
        ∧ code = "TS".toList ++ rest.takeWhile Char.isDigit := by
      cases h : afterFirst "error TS".toList line with
      | none => rw [h] at hcode; exact absurd hcode (by simp)
      | some r =>
        rw [h] at hcode
        exact ⟨r, rfl, (Option.some_inj.mp hcode).symm⟩
    obtain ⟨pre, hpre⟩ := afterFirst_decomp hrest
    have hdecomp : line
        = (pre ++ "error ".toList)
          ++ ("TS".toList ++ rest.takeWhile Char.isDigit)
          ++ rest.dropWhile Char.isDigit := by
      rw [hpre]
      simp only [List.append_assoc]
      congr 1
      rw [List.takeWhile_append_dropWhile]
      rfl
    have hcontains : containsSub code line = true := by
      rw [hc]
      exact containsSub_of_decomp line hdecomp
    have hany : (ignorableCodes.any fun c => containsSub c line) = true :=
      List.any_eq_true.mpr ⟨code, hmem, hcontains⟩
    rw [lineIsFatal, hany]
    simp

theorem C4_validateTest_fatal_gate_witness :
    validateTest ⟨false, "error TS2300: bad".toList, ⟨true, [], true, none⟩⟩
        "src/a.ts".toList "a.ts".toList 80
      = ({ success := false, error := .tscCompilation "error TS2300: bad".toList,
            coverage := 0 }, false)
    ∧ (validateTest ⟨true, "error TS2300: bad".toList, ⟨true, [], true, none⟩⟩
        "src/a.ts".toList "a.ts".toList 80).2 = true
    ∧ lineIsFatal "error TS2307: missing module".toList = false :=
  ⟨(C4_validateTest_fatal_gate ⟨false, "error TS2300: bad".toList,
      ⟨true, [], true, none⟩⟩ "src/a.ts".toList "a.ts".toList 80).1 rfl (by decide),
   (C4_validateTest_fatal_gate ⟨true, "error TS2300: bad".toList,
      ⟨true, [], true, none⟩⟩ "src/a.ts".toList "a.ts".toList 80).2.1 (Or.inl rfl),
   (C4_validateTest_fatal_gate ⟨true, "error TS2300: bad".toList,
      ⟨true, [], true, none⟩⟩ "src/a.ts".toList "a.ts".toList 80).2.2
      "error TS2307: missing module".toList
      ⟨"TS2307".toList, by decide, by decide⟩⟩

end KrakenSpec
